import Mathlib

/-!
Shallow embedding of the noguchi ticketing application (src/script.js, the
React variant at lines 89-689, which is the variant the specification
describes).

Modelling conventions:
* Wall-clock instants are modelled as natural numbers counting minutes from
  the schedule-date's midnight.  dayjs ISO strings are an injective rendering
  of such instants, so `startISO`/`endISO`/`slotStartISO`/`slotEndISO` are
  carried as the instant itself (a `Nat`); `createdAtISO` is never parsed by
  the code paths under study and stays a `String`.
* JavaScript strings are Lean `String`s; character-level operations
  (split, replace, regex matching) are defined on `List Char`.
* `Math.random`-driven draws are modelled by explicit streams of in-range
  indices; the unbounded `do … while` retry loop of `randTicketId` and the
  unbounded `while` loop of `buildSlots` take an explicit fuel argument
  (the JavaScript loops terminate under exactly the side conditions spelled
  out at the corresponding theorems).
* Thrown runtime errors (the `slot.id` access on `undefined` in
  `importCSVText`) are modelled with `Except Unit`.
-/

namespace Noguchi

/-- Decimal digit character, as produced by number formatting. -/
def digitChar (d : Nat) : Char := Char.ofNat (48 + d)

/-- Two-digit zero-padded rendering used by dayjs `format("HH")`/`format("mm")`. -/
def pad2 (n : Nat) : String := ⟨[digitChar (n / 10 % 10), digitChar (n % 10)]⟩

/-- Rendering of an instant (minutes) in dayjs `format("HH:mm")`. -/
def hhmm (n : Nat) : String := pad2 (n / 60 % 24) ++ ":" ++ pad2 (n % 60)

/-- Model of `String(idx).padStart(3, "0")` in `buildSlots`. -/
def pad3 (n : Nat) : String :=
  let s := toString n
  if s.length < 3 then ⟨List.replicate (3 - s.length) '0'⟩ ++ s else s

/-- Model of JavaScript `String.prototype.trim()`: remove leading and
trailing whitespace. -/
def jsTrim (s : String) : String :=
  ⟨((s.data.dropWhile Char.isWhitespace).reverse.dropWhile Char.isWhitespace).reverse⟩

/-- Model of JavaScript `Array.prototype.join(sep)` on an array of strings. -/
def joinSep (sep : String) : List String → String
  | [] => ""
  | [x] => x
  | x :: xs => x ++ sep ++ joinSep sep xs

/-- The `schedule` sub-record of the settings (`{date, start, end}`);
`start`/`endT` are the configured times as minutes from midnight
(the code stores them as `"HH:mm"` strings, an injective rendering). -/
structure Schedule where
  date : String
  start : Nat
  endT : Nat
deriving DecidableEq, Repr

/-- The settings record (see `defaultSettings` in the source). -/
structure Settings where
  eventTitle : String
  location : String
  slotMinutes : Nat
  slotCapacity : Nat
  reminderMinutesBefore : Nat
  adminPin : String
  schedule : Schedule
deriving DecidableEq, Repr

/-- A partial settings record, as passed to `updateSettings(partial)`:
a field is `some v` when the partial object carries that key. -/
structure SettingsPartial where
  eventTitle : Option String := none
  location : Option String := none
  slotMinutes : Option Nat := none
  slotCapacity : Option Nat := none
  reminderMinutesBefore : Option Nat := none
  adminPin : Option String := none
  schedule : Option Schedule := none
deriving DecidableEq, Repr

/-- Model of `updateSettings(partial)`, i.e. `{ ...prev, ...partial }`:
every key present in the partial record overrides, all others are kept. -/
def updateSettings (prev : Settings) (p : SettingsPartial) : Settings where
  eventTitle := p.eventTitle.getD prev.eventTitle
  location := p.location.getD prev.location
  slotMinutes := p.slotMinutes.getD prev.slotMinutes
  slotCapacity := p.slotCapacity.getD prev.slotCapacity
  reminderMinutesBefore := p.reminderMinutesBefore.getD prev.reminderMinutesBefore
  adminPin := p.adminPin.getD prev.adminPin
  schedule := p.schedule.getD prev.schedule

/-- A slot produced by `buildSlots`; `startISO`/`endISO` carry the instant
(minutes) that the source's ISO strings render. -/
structure Slot where
  id : String
  label : String
  startISO : Nat
  endISO : Nat
deriving DecidableEq, Repr

/-- The slot object pushed by one iteration of the `buildSlots` loop. -/
def mkSlot (date : String) (m t idx : Nat) : Slot where
  id := date ++ "-" ++ pad3 idx
  label := hhmm t ++ "-" ++ hhmm (t + m)
  startISO := t
  endISO := t + m

/-- Loop of `buildSlots`: `while (t.isBefore(end)) { push slot; t = t+m; idx++ }`.
The fuel argument bounds the iteration count; `buildSlots` supplies
`endT - start`, which is enough fuel whenever `slotMinutes ≥ 1` (for
`slotMinutes = 0` the JavaScript loop does not terminate). -/
def buildSlotsGo (date : String) (endT m : Nat) : Nat → Nat → Nat → List Slot
  | 0, _, _ => []
  | fuel + 1, t, idx =>
    if t < endT then mkSlot date m t idx :: buildSlotsGo date endT m fuel (t + m) (idx + 1)
    else []

/-- Model of `buildSlots(settings)`. -/
def buildSlots (s : Settings) : List Slot :=
  buildSlotsGo s.schedule.date s.schedule.endT s.slotMinutes
    (s.schedule.endT - s.schedule.start) s.schedule.start 0

/-- Letters drawn from in `randTicketId`. -/
def lettersChars : List Char := "ABCDEFGHIJKLMNOPQRSTUVWXYZ".data

/-- Digits drawn from in `randTicketId`. -/
def digitsChars : List Char := "0123456789".data

/-- One candidate of the `randTicketId` loop body: five uniform letter draws
followed by three uniform digit draws (each `Math.floor(Math.random()*len)`
lands in range, so draws are modelled as `Fin` indices). -/
def genCandidate (ls : Fin 5 → Fin 26) (ds : Fin 3 → Fin 10) : String :=
  ⟨(List.ofFn fun i => lettersChars.get (Fin.cast (by decide) (ls i))) ++
    (List.ofFn fun i => digitsChars.get (Fin.cast (by decide) (ds i)))⟩

/-- The `do { id = … } while (existing.has(id))` loop of `randTicketId`,
with explicit fuel (the JavaScript loop runs until a fresh candidate shows
up); `k` indexes into the candidate stream. -/
def randTicketIdGo (existing : List String) (cand : Nat → String) : Nat → Nat → Option String
  | 0, _ => none
  | fuel + 1, k =>
    if existing.contains (cand k) then randTicketIdGo existing cand fuel (k + 1)
    else some (cand k)

/-- Model of `randTicketId(existing)`: the used-set is the list of used ids,
`ls`/`ds` are the per-attempt random draws. -/
def randTicketId (existing : List String)
    (ls : Nat → Fin 5 → Fin 26) (ds : Nat → Fin 3 → Fin 10) (fuel : Nat) : Option String :=
  randTicketIdGo existing (fun k => genCandidate (ls k) (ds k)) fuel 0

/-- The fixed identifier shape: exactly 5 uppercase letters then 3 digits. -/
def isTicketIdShape (s : String) : Bool :=
  s.data.length == 8 &&
    (s.data.take 5).all (fun c => 'A' ≤ c && c ≤ 'Z') &&
    (s.data.drop 5).all (fun c => '0' ≤ c && c ≤ '9')

/-- A ticket record (`{id, name, contact, slotId, slotStartISO, slotEndISO,
createdAtISO, notified}`); the slot instants are numeric snapshots (see the
file header), `createdAtISO` stays the stored string. -/
structure Ticket where
  id : String
  name : String
  contact : String
  slotId : String
  slotStartISO : Nat
  slotEndISO : Nat
  createdAtISO : String
  notified : Bool
deriving DecidableEq, Repr

/-- Model of `capacityForSlot(tickets, slotId)`. -/
def capacityForSlot (tickets : List Ticket) (slotId : String) : Nat :=
  (tickets.filter (fun t => t.slotId == slotId)).length

/-- Outcome of one `createTicket` invocation: the three `alert`-and-return
failure paths, or the issued ticket. -/
inductive CreateOutcome where
  | invalidSlot
  | blankName
  | slotFull
  | issued (t : Ticket)
deriving DecidableEq, Repr

/-- The specification's `ValidationError` kind (§7 groups the blank-name
alert and the invalid-slot-selection alert under `ValidationError`). -/
def isValidationOutcome : CreateOutcome → Prop
  | .invalidSlot => True
  | .blankName => True
  | _ => False

/-- Model of `createTicket()`: returns the outcome and the registry after the
call.  `newId` stands for the `randTicketId(existingIds)` result and `nowISO`
for `new Date().toISOString()` (both modelled separately). -/
def createTicket (slots : List Slot) (tickets : List Ticket) (slotCapacity : Nat)
    (name contact slotId : String) (newId : String) (nowISO : String) :
    CreateOutcome × List Ticket :=
  match slots.find? (fun s => s.id == slotId) with
  | none => (.invalidSlot, tickets)
  | some slot =>
    if jsTrim name = "" then (.blankName, tickets)
    else if slotCapacity ≤ capacityForSlot tickets slotId then (.slotFull, tickets)
    else
      let t : Ticket :=
        { id := newId, name := jsTrim name, contact := jsTrim contact
          slotId := slot.id, slotStartISO := slot.startISO, slotEndISO := slot.endISO
          createdAtISO := nowISO, notified := false }
      (.issued t, tickets ++ [t])

/-- Model of the admin panel's `countsBySlot` memo: a `Map` seeded with a zero
per slot id, then incremented once per ticket.  The JavaScript `Map` is
modelled extensionally by its `get` function. -/
def countsBySlot (slots : List Slot) (tickets : List Ticket) : String → Option Nat :=
  let m1 := slots.foldl (fun m s => fun k => if k = s.id then some 0 else m k)
    (fun _ => none)
  tickets.foldl
    (fun m t => fun k => if k = t.slotId then some ((m t.slotId).getD 0 + 1) else m k) m1

/-- Model of `String(v).replace(/"/g, '""')` at the character level. -/
def escQuotes : List Char → List Char
  | [] => []
  | c :: cs => if c = '"' then '"' :: '"' :: escQuotes cs else c :: escQuotes cs

/-- The `esc` helper of `toCSV`: wrap in double quotes, doubling inner quotes. -/
def esc (v : String) : String := ⟨'"' :: (escQuotes v.data ++ ['"'])⟩

/-- A row object handed to `toCSV`, as an ordered key/value list (JavaScript
object literals enumerate keys in literal order). -/
def rowLookup : List (String × String) → String → Option String
  | [], _ => none
  | (k, v) :: r, h => if k = h then some v else rowLookup r h

/-- Model of `toCSV(rows)`: empty string on no rows, otherwise the header line
(keys of the first row) followed by one escaped line per row, fields looked up
by header name (`String(r[h] ?? "")`). -/
def toCSV (rows : List (List (String × String))) : String :=
  match rows with
  | [] => ""
  | r0 :: _ =>
    let headers := r0.map Prod.fst
    joinSep "\n"
      (joinSep "," headers ::
        rows.map (fun r => joinSep "," (headers.map (fun h => esc ((rowLookup r h).getD "")))))

/-- The `slot_label` field of an exported row:
`dayjs(slotStartISO).format("HH:mm") + "-" + dayjs(slotEndISO).format("HH:mm")`. -/
def slotLabel (t : Ticket) : String := hhmm t.slotStartISO ++ "-" ++ hhmm t.slotEndISO

/-- The row object built for one ticket inside `exportCSV`. -/
def ticketRow (t : Ticket) : List (String × String) :=
  [("id", t.id), ("name", t.name), ("contact", t.contact),
    ("slot_label", slotLabel t), ("slot_id", t.slotId), ("created_at", t.createdAtISO)]

/-- Model of `exportCSV()`: the CSV text handed to `downloadFile`. -/
def exportCSVText (tickets : List Ticket) : String := toCSV (tickets.map ticketRow)

/-- The header line of an export (the keys of a ticket row, joined). -/
def csvHeader : String := "id,name,contact,slot_label,slot_id,created_at"

/-- The data line an export produces for one ticket. -/
def rowLine (t : Ticket) : String :=
  joinSep "," [esc t.id, esc t.name, esc t.contact, esc (slotLabel t), esc t.slotId,
    esc t.createdAtISO]

/-- No exported field of the ticket contains a line break (a line break inside
a field breaks the line structure of the CSV text, since `toCSV` does not
escape newlines). -/
def ticketFieldsNoNewline (t : Ticket) : Prop :=
  '\n' ∉ t.id.data ∧ '\n' ∉ t.name.data ∧ '\n' ∉ t.contact.data ∧
    '\n' ∉ t.slotId.data ∧ '\n' ∉ t.createdAtISO.data

instance ticketFieldsNoNewlineDecidable (t : Ticket) : Decidable (ticketFieldsNoNewline t) := by
  unfold ticketFieldsNoNewline
  infer_instance

/-- The ticket fields the CSV round trip is claimed to preserve:
identifier, name, contact, slot identifier and creation timestamp. -/
def ticketCore (t : Ticket) : String × String × String × String × String :=
  (t.id, t.name, t.contact, t.slotId, t.createdAtISO)

/-- Model of `text.split(/\r?\n/)`: split at every `'\n'`, dropping a `'\r'`
immediately before it.  The accumulator holds the current line reversed. -/
def splitLinesAux : List Char → List Char → List (List Char)
  | [], acc => [acc.reverse]
  | c :: cs, acc =>
    if c = '\n' then
      (if acc.head? = some '\r' then acc.tail.reverse else acc.reverse) :: splitLinesAux cs []
    else splitLinesAux cs (c :: acc)

/-- Split a character list into lines, as `split(/\r?\n/)` does. -/
def splitLines (cs : List Char) : List (List Char) := splitLinesAux cs []

/-- Model of `line.split(",")` (keeps empty segments, like JavaScript). -/
def splitCommaAux : List Char → List Char → List (List Char)
  | [], acc => [acc.reverse]
  | c :: cs, acc =>
    if c = ',' then acc.reverse :: splitCommaAux cs [] else splitCommaAux cs (c :: acc)

/-- Split a character list at commas. -/
def splitComma (cs : List Char) : List (List Char) := splitCommaAux cs []

/-- Model of `s.replace(/^"|"$/g, "")`: drop one leading and one trailing
double quote when present. -/
def stripEdgeQuotes (cs : List Char) : List Char :=
  let cs1 := if cs.head? = some '"' then cs.tail else cs
  if cs1.getLast? = some '"' then cs1.dropLast else cs1

/-- Model of `s.replace(/""/g, '"')`: collapse doubled quotes left to right. -/
def unescQuotes : List Char → List Char
  | [] => []
  | [c] => [c]
  | c :: c2 :: cs =>
    if c = '"' then
      if c2 = '"' then '"' :: unescQuotes cs
      else c :: unescQuotes (c2 :: cs)
    else c :: unescQuotes (c2 :: cs)

/-- Body of a quoted-field match of the import regex
`/"([^"]*(?:""[^"]*)*)"|([^,]+)/`, starting after the opening quote: consume
non-quote characters and doubled quotes, preferring to continue through a
doubled quote when the remainder still closes (the regex engine's greedy
backtracking), else close at the first quote.  Returns the consumed
characters (closing quote included) and the rest. -/
def quotedBody : List Char → Option (List Char × List Char)
  | [] => none
  | c :: cs =>
    if c = '"' then
      match cs with
      | c2 :: cs2 =>
        if c2 = '"' then
          match quotedBody cs2 with
          | some (b, r) => some ('"' :: '"' :: b, r)
          | none => some (['"'], cs)
        else some (['"'], cs)
      | [] => some (['"'], [])
    else
      match quotedBody cs with
      | some (b, r) => some (c :: b, r)
      | none => none

/-- A quoted-field match of the import regex at the current position. -/
def quotedMatch : List Char → Option (List Char × List Char)
  | [] => none
  | c :: cs =>
    if c = '"' then (quotedBody cs).map (fun p => ('"' :: p.1, p.2))
    else none

/-- Model of `line.match(/"([^"]*(?:""[^"]*)*)"|([^,]+)/g)`: at each position
try a quoted field, else a maximal nonempty run of non-commas, else advance
one character.  Fuel bounds the scan; the line's length is always enough. -/
def matchAll : Nat → List Char → List (List Char)
  | 0, _ => []
  | _ + 1, [] => []
  | fuel + 1, c :: cs =>
    match quotedMatch (c :: cs) with
    | some (m, r) => m :: matchAll fuel r
    | none =>
      if c = ',' then matchAll fuel cs
      else ((c :: cs).takeWhile (fun x => x ≠ ',')) ::
        matchAll fuel ((c :: cs).dropWhile (fun x => x ≠ ','))

/-- The columns of one import line: regex matches, each with its edge quotes
stripped and doubled quotes collapsed (`?.map(...) || []` yields `[]` when
there is no match). -/
def parseCols (line : List Char) : List (List Char) :=
  (matchAll line.length line).map (fun m => unescQuotes (stripEdgeQuotes m))

/-- The parsed header of an import: `lines[0].split(",")` with edge quotes
stripped from each name. -/
def headerOf (hline : List Char) : List (List Char) :=
  (splitComma hline).map stripEdgeQuotes

/-- Model of `header.indexOf(h)` (as an `Option` instead of `-1`). -/
def colIdx (header : List (List Char)) (h : String) : Option Nat :=
  header.findIdx? (fun n => n == h.data)

/-- Model of `cols[idx(h)]`: `undefined` (`none`) when the header name is
absent or the row has too few columns. -/
def colAt (cols : List (List Char)) (i : Option Nat) : Option (List Char) :=
  i.bind (fun k => cols.get? k)

/-- JavaScript `x || d` where `x` is a string or `undefined`: the fallback is
taken when `x` is `undefined` or the empty string. -/
def jsOr (v : Option (List Char)) (d : String) : String :=
  match v with
  | some c => if c = [] then d else ⟨c⟩
  | none => d

/-- Model of `slots.find((s) => s.id === slotId) || slots[0]`, where `slotId`
may be `undefined`. -/
def resolveSlot (slots : List Slot) (sid : Option (List Char)) : Option Slot :=
  let found : Option Slot :=
    match sid with
    | some s => slots.find? (fun sl => sl.id.data == s)
    | none => none
  found.orElse (fun _ => slots.head?)

/-- One iteration of the import loop at row index `i`; `fresh` stands for the
`randTicketId(new Set(tickets.map(t => t.id)))` call made when the id column
is missing or empty, `now` for `new Date().toISOString()`.  When both the
lookup and `slots[0]` are `undefined`, reading `slot.id` throws (`error`). -/
def importRow (slots : List Slot) (fresh : String) (now : String)
    (header : List (List Char)) (line : List Char) : Except Unit Ticket :=
  let cols := parseCols line
  match resolveSlot slots (colAt cols (colIdx header "slot_id")) with
  | none => .error ()
  | some slot => .ok
    { id := jsOr (colAt cols (colIdx header "id")) fresh
      name := jsOr (colAt cols (colIdx header "name")) ""
      contact := jsOr (colAt cols (colIdx header "contact")) ""
      slotId := slot.id
      slotStartISO := slot.startISO
      slotEndISO := slot.endISO
      createdAtISO := jsOr (colAt cols (colIdx header "created_at")) now
      notified := false }

/-- The `for` loop of `importCSVText` over the data lines (index `i` feeds the
per-row `fresh` stream); the first thrown error aborts the whole import. -/
def importRows (slots : List Slot) (fresh : Nat → String) (now : String)
    (header : List (List Char)) : Nat → List (List Char) → Except Unit (List Ticket)
  | _, [] => .ok []
  | i, l :: ls =>
    match importRow slots (fresh i) now header l with
    | .error e => .error e
    | .ok t =>
      match importRows slots fresh now header (i + 1) ls with
      | .error e => .error e
      | .ok ts => .ok (t :: ts)

/-- Model of `importCSVText(text)`: the registry value passed to `setTickets`,
or the current registry on the empty-lines early return (`ok tickets`), or
`error` when the loop throws before `setTickets` runs. -/
def importCSVText (slots : List Slot) (tickets : List Ticket) (fresh : Nat → String)
    (now : String) (text : String) : Except Unit (List Ticket) :=
  match (splitLines text.data).filter (fun l => l ≠ []) with
  | [] => .ok tickets
  | hline :: rest => importRows slots fresh now (headerOf hline) 0 rest

/-- The ticket registry after an `importCSVText` call: the imported list when
`setTickets` ran, the unchanged registry when the call returned early or threw. -/
def registryAfterImport (slots : List Slot) (tickets : List Ticket) (fresh : Nat → String)
    (now : String) (text : String) : List Ticket :=
  match importCSVText slots tickets fresh now text with
  | .ok out => out
  | .error _ => tickets

/-- Concrete settings for witnesses and counterexamples: a 25-minute
schedule (09:00–09:25) cut into 10-minute slots. -/
def exSettings : Settings where
  eventTitle := "t"
  location := "l"
  slotMinutes := 10
  slotCapacity := 8
  reminderMinutesBefore := 5
  adminPin := "p"
  schedule := { date := "2025-10-31", start := 540, endT := 565 }

/-- A concrete slot for counterexamples: the only slot of the current list. -/
def exSlotA : Slot where
  id := "S1"
  label := "00:00-00:10"
  startISO := 0
  endISO := 10

/-- A concrete ticket whose `slotId` does not occur in `[exSlotA]`. -/
def exTicketOrphan : Ticket where
  id := "AAAAA000"
  name := "n"
  contact := ""
  slotId := "S0"
  slotStartISO := 0
  slotEndISO := 10
  createdAtISO := "T1"
  notified := false

/-- A concrete ticket whose `slotId` resolves in `[exSlotA]` and whose fields
exercise comma and quote escaping. -/
def exTicketGood : Ticket where
  id := "AAAAA000"
  name := "no,gu\"chi"
  contact := ""
  slotId := "S1"
  slotStartISO := 0
  slotEndISO := 10
  createdAtISO := "T1"
  notified := false

/-! ### C2 / C6: `createTicket` failure paths -/

/-- C2: for every ticket list and every slot whose ticket count already meets
or exceeds the configured capacity, `createTicket` on that slot leaves the
registry unchanged and issues nothing; when the request is otherwise valid
(the slot resolves and the name is non-blank) it fails with the capacity
error. -/
theorem createTicket_at_capacity (slots : List Slot) (tickets : List Ticket)
    (cap : Nat) (name contact slotId newId nowISO : String)
    (hcap : cap ≤ capacityForSlot tickets slotId) :
    (createTicket slots tickets cap name contact slotId newId nowISO).2 = tickets ∧
    (∀ t, (createTicket slots tickets cap name contact slotId newId nowISO).1 ≠ .issued t) ∧
    ((slots.find? (fun s => s.id == slotId)).isSome = true → jsTrim name ≠ "" →
      (createTicket slots tickets cap name contact slotId newId nowISO).1 = .slotFull) := by
  unfold createTicket
  cases hfind : slots.find? (fun s => s.id == slotId) with
  | none => simp
  | some slot =>
    by_cases hname : jsTrim name = "" <;> simp [hname, hcap]

/-- Witness for `createTicket_at_capacity` at a concrete full slot. -/
theorem createTicket_at_capacity_witness :
    (1 ≤ capacityForSlot
      [{ id := "A", name := "n", contact := "", slotId := "S0", slotStartISO := 0,
         slotEndISO := 10, createdAtISO := "T", notified := false }] "S0") ∧
    ((createTicket [{ id := "S0", label := "L", startISO := 0, endISO := 10 }]
      [{ id := "A", name := "n", contact := "", slotId := "S0", slotStartISO := 0,
         slotEndISO := 10, createdAtISO := "T", notified := false }]
      1 "bob" "" "S0" "BBBBB111" "T2").2 =
      [{ id := "A", name := "n", contact := "", slotId := "S0", slotStartISO := 0,
         slotEndISO := 10, createdAtISO := "T", notified := false }] ∧
    (∀ t, (createTicket [{ id := "S0", label := "L", startISO := 0, endISO := 10 }]
      [{ id := "A", name := "n", contact := "", slotId := "S0", slotStartISO := 0,
         slotEndISO := 10, createdAtISO := "T", notified := false }]
      1 "bob" "" "S0" "BBBBB111" "T2").1 ≠ .issued t) ∧
    ((([{ id := "S0", label := "L", startISO := 0, endISO := 10 }] :
        List Slot).find? (fun s => s.id == "S0")).isSome = true → jsTrim "bob" ≠ "" →
      (createTicket [{ id := "S0", label := "L", startISO := 0, endISO := 10 }]
      [{ id := "A", name := "n", contact := "", slotId := "S0", slotStartISO := 0,
         slotEndISO := 10, createdAtISO := "T", notified := false }]
      1 "bob" "" "S0" "BBBBB111" "T2").1 = .slotFull)) :=
  ⟨by decide, createTicket_at_capacity _ _ _ _ _ _ _ _ (by decide)⟩

/-- C6: for every slot state, `createTicket` with a blank (empty or
whitespace-only) name fails with one of the two validation alerts and appends
nothing to the registry. -/
theorem createTicket_blank_name (slots : List Slot) (tickets : List Ticket)
    (cap : Nat) (name contact slotId newId nowISO : String)
    (hname : jsTrim name = "") :
    isValidationOutcome (createTicket slots tickets cap name contact slotId newId nowISO).1 ∧
    (createTicket slots tickets cap name contact slotId newId nowISO).2 = tickets := by
  unfold createTicket
  cases hfind : slots.find? (fun s => s.id == slotId) with
  | none => exact ⟨trivial, rfl⟩
  | some slot => simp [hname, isValidationOutcome]

/-- Witness for `createTicket_blank_name` at a whitespace-only name. -/
theorem createTicket_blank_name_witness :
    (jsTrim " " = "") ∧
    (isValidationOutcome (createTicket [{ id := "S0", label := "L", startISO := 0, endISO := 10 }]
        [] 8 " " "" "S0" "BBBBB111" "T2").1 ∧
      (createTicket [{ id := "S0", label := "L", startISO := 0, endISO := 10 }]
        [] 8 " " "" "S0" "BBBBB111" "T2").2 = []) :=
  ⟨by decide, createTicket_blank_name _ _ _ _ _ _ _ _ (by decide)⟩

/-! ### C8: `updateSettings` is a partial merge -/

/-- C8: `updateSettings` takes the new value for every field the partial
record carries and leaves every other field unchanged. -/
theorem updateSettings_merge (prev : Settings) (p : SettingsPartial) :
    (p.eventTitle = none → (updateSettings prev p).eventTitle = prev.eventTitle) ∧
    (∀ v, p.eventTitle = some v → (updateSettings prev p).eventTitle = v) ∧
    (p.location = none → (updateSettings prev p).location = prev.location) ∧
    (∀ v, p.location = some v → (updateSettings prev p).location = v) ∧
    (p.slotMinutes = none → (updateSettings prev p).slotMinutes = prev.slotMinutes) ∧
    (∀ v, p.slotMinutes = some v → (updateSettings prev p).slotMinutes = v) ∧
    (p.slotCapacity = none → (updateSettings prev p).slotCapacity = prev.slotCapacity) ∧
    (∀ v, p.slotCapacity = some v → (updateSettings prev p).slotCapacity = v) ∧
    (p.reminderMinutesBefore = none →
      (updateSettings prev p).reminderMinutesBefore = prev.reminderMinutesBefore) ∧
    (∀ v, p.reminderMinutesBefore = some v →
      (updateSettings prev p).reminderMinutesBefore = v) ∧
    (p.adminPin = none → (updateSettings prev p).adminPin = prev.adminPin) ∧
    (∀ v, p.adminPin = some v → (updateSettings prev p).adminPin = v) ∧
    (p.schedule = none → (updateSettings prev p).schedule = prev.schedule) ∧
    (∀ v, p.schedule = some v → (updateSettings prev p).schedule = v) := by
  refine ⟨fun h => ?_, fun v h => ?_, fun h => ?_, fun v h => ?_, fun h => ?_, fun v h => ?_,
    fun h => ?_, fun v h => ?_, fun h => ?_, fun v h => ?_, fun h => ?_, fun v h => ?_,
    fun h => ?_, fun v h => ?_⟩ <;> simp [updateSettings, h]

/-- Witness for `updateSettings_merge` at a concrete partial update. -/
theorem updateSettings_merge_witness :
    (({ slotMinutes := some 15 } : SettingsPartial).eventTitle = none →
      (updateSettings
        { eventTitle := "t", location := "l", slotMinutes := 10, slotCapacity := 8,
          reminderMinutesBefore := 5, adminPin := "p",
          schedule := { date := "d", start := 540, endT := 960 } }
        { slotMinutes := some 15 }).eventTitle = "t") ∧
    (∀ v, ({ slotMinutes := some 15 } : SettingsPartial).eventTitle = some v →
      (updateSettings
        { eventTitle := "t", location := "l", slotMinutes := 10, slotCapacity := 8,
          reminderMinutesBefore := 5, adminPin := "p",
          schedule := { date := "d", start := 540, endT := 960 } }
        { slotMinutes := some 15 }).eventTitle = v) ∧
    (({ slotMinutes := some 15 } : SettingsPartial).location = none →
      (updateSettings
        { eventTitle := "t", location := "l", slotMinutes := 10, slotCapacity := 8,
          reminderMinutesBefore := 5, adminPin := "p",
          schedule := { date := "d", start := 540, endT := 960 } }
        { slotMinutes := some 15 }).location = "l") ∧
    (∀ v, ({ slotMinutes := some 15 } : SettingsPartial).location = some v →
      (updateSettings
        { eventTitle := "t", location := "l", slotMinutes := 10, slotCapacity := 8,
          reminderMinutesBefore := 5, adminPin := "p",
          schedule := { date := "d", start := 540, endT := 960 } }
        { slotMinutes := some 15 }).location = v) ∧
    (({ slotMinutes := some 15 } : SettingsPartial).slotMinutes = none →
      (updateSettings
        { eventTitle := "t", location := "l", slotMinutes := 10, slotCapacity := 8,
          reminderMinutesBefore := 5, adminPin := "p",
          schedule := { date := "d", start := 540, endT := 960 } }
        { slotMinutes := some 15 }).slotMinutes = 10) ∧
    (∀ v, ({ slotMinutes := some 15 } : SettingsPartial).slotMinutes = some v →
      (updateSettings
        { eventTitle := "t", location := "l", slotMinutes := 10, slotCapacity := 8,
          reminderMinutesBefore := 5, adminPin := "p",
          schedule := { date := "d", start := 540, endT := 960 } }
        { slotMinutes := some 15 }).slotMinutes = v) ∧
    (({ slotMinutes := some 15 } : SettingsPartial).slotCapacity = none →
      (updateSettings
        { eventTitle := "t", location := "l", slotMinutes := 10, slotCapacity := 8,
          reminderMinutesBefore := 5, adminPin := "p",
          schedule := { date := "d", start := 540, endT := 960 } }
        { slotMinutes := some 15 }).slotCapacity = 8) ∧
    (∀ v, ({ slotMinutes := some 15 } : SettingsPartial).slotCapacity = some v →
      (updateSettings
        { eventTitle := "t", location := "l", slotMinutes := 10, slotCapacity := 8,
          reminderMinutesBefore := 5, adminPin := "p",
          schedule := { date := "d", start := 540, endT := 960 } }
        { slotMinutes := some 15 }).slotCapacity = v) ∧
    (({ slotMinutes := some 15 } : SettingsPartial).reminderMinutesBefore = none →
      (updateSettings
        { eventTitle := "t", location := "l", slotMinutes := 10, slotCapacity := 8,
          reminderMinutesBefore := 5, adminPin := "p",
          schedule := { date := "d", start := 540, endT := 960 } }
        { slotMinutes := some 15 }).reminderMinutesBefore = 5) ∧
    (∀ v, ({ slotMinutes := some 15 } : SettingsPartial).reminderMinutesBefore = some v →
      (updateSettings
        { eventTitle := "t", location := "l", slotMinutes := 10, slotCapacity := 8,
          reminderMinutesBefore := 5, adminPin := "p",
          schedule := { date := "d", start := 540, endT := 960 } }
        { slotMinutes := some 15 }).reminderMinutesBefore = v) ∧
    (({ slotMinutes := some 15 } : SettingsPartial).adminPin = none →
      (updateSettings
        { eventTitle := "t", location := "l", slotMinutes := 10, slotCapacity := 8,
          reminderMinutesBefore := 5, adminPin := "p",
          schedule := { date := "d", start := 540, endT := 960 } }
        { slotMinutes := some 15 }).adminPin = "p") ∧
    (∀ v, ({ slotMinutes := some 15 } : SettingsPartial).adminPin = some v →
      (updateSettings
        { eventTitle := "t", location := "l", slotMinutes := 10, slotCapacity := 8,
          reminderMinutesBefore := 5, adminPin := "p",
          schedule := { date := "d", start := 540, endT := 960 } }
        { slotMinutes := some 15 }).adminPin = v) ∧
    (({ slotMinutes := some 15 } : SettingsPartial).schedule = none →
      (updateSettings
        { eventTitle := "t", location := "l", slotMinutes := 10, slotCapacity := 8,
          reminderMinutesBefore := 5, adminPin := "p",
          schedule := { date := "d", start := 540, endT := 960 } }
        { slotMinutes := some 15 }).schedule = { date := "d", start := 540, endT := 960 }) ∧
    (∀ v, ({ slotMinutes := some 15 } : SettingsPartial).schedule = some v →
      (updateSettings
        { eventTitle := "t", location := "l", slotMinutes := 10, slotCapacity := 8,
          reminderMinutesBefore := 5, adminPin := "p",
          schedule := { date := "d", start := 540, endT := 960 } }
        { slotMinutes := some 15 }).schedule = v) :=
  updateSettings_merge _ _

/-! ### C9: the two counting implementations agree -/

/-- After the seeding pass of `countsBySlot`, a key not named by any slot is
untouched. -/
theorem countsBySlot_seed_miss (slots : List Slot) (k : String) :
    ∀ m : String → Option Nat, (∀ s ∈ slots, s.id ≠ k) →
    slots.foldl (fun m s => fun k' => if k' = s.id then some 0 else m k') m k = m k := by
  induction slots with
  | nil => intro m _; rfl
  | cons s rest ih =>
    intro m h
    simp only [List.foldl_cons]
    rw [ih _ (fun x hx => h x (List.mem_cons_of_mem _ hx))]
    exact if_neg (fun hk => h s (List.mem_cons_self _ _) hk.symm)

/-- After the seeding pass of `countsBySlot`, every slot id maps to zero. -/
theorem countsBySlot_seed_mem (slots : List Slot) (k : String) :
    ∀ m : String → Option Nat, (∃ s ∈ slots, s.id = k) →
    slots.foldl (fun m s => fun k' => if k' = s.id then some 0 else m k') m k = some 0 := by
  induction slots with
  | nil => rintro m ⟨s, hs, _⟩; cases hs
  | cons s rest ih =>
    rintro m ⟨x, hx, hxk⟩
    simp only [List.foldl_cons]
    by_cases hr : ∃ y ∈ rest, y.id = k
    · exact ih _ hr
    · rcases List.mem_cons.mp hx with rfl | hx'
      · rw [countsBySlot_seed_miss rest k _ (fun y hy => by
          intro hyk; exact hr ⟨y, hy, hyk⟩)]
        simp [hxk]
      · exact absurd ⟨x, hx', hxk⟩ hr

/-- The counting pass of `countsBySlot` adds the number of matching tickets
to whatever the map already holds at a present key. -/
theorem countsBySlot_count (k : String) :
    ∀ (tickets : List Ticket) (m : String → Option Nat) (v : Nat), m k = some v →
    tickets.foldl
        (fun m t => fun k' => if k' = t.slotId then some ((m t.slotId).getD 0 + 1) else m k') m k =
      some (v + capacityForSlot tickets k) := by
  intro tickets
  induction tickets with
  | nil => intro m v h; simpa [capacityForSlot] using h
  | cons t ts ih =>
    intro m v h
    simp only [List.foldl_cons]
    by_cases ht : k = t.slotId
    · have h2 : (fun k' => if k' = t.slotId then some ((m t.slotId).getD 0 + 1) else m k') k =
          some (v + 1) := by
        show (if k = t.slotId then some ((m t.slotId).getD 0 + 1) else m k) = some (v + 1)
        rw [if_pos ht, ← ht, h]
        rfl
      rw [ih _ _ h2]
      have hb : (t.slotId == k) = true := by simp [ht]
      have hcap2 : capacityForSlot (t :: ts) k = capacityForSlot ts k + 1 := by
        simp [capacityForSlot, List.filter_cons, hb]
      rw [hcap2]
      congr 1
      omega
    · have h2 : (fun k' => if k' = t.slotId then some ((m t.slotId).getD 0 + 1) else m k') k =
          some v := by
        show (if k = t.slotId then some ((m t.slotId).getD 0 + 1) else m k) = some v
        rw [if_neg ht, h]
      rw [ih _ _ h2]
      have hb : (t.slotId == k) = false := by
        simp only [beq_eq_false_iff_ne, ne_eq]
        exact fun hh => ht hh.symm
      have hcap2 : capacityForSlot (t :: ts) k = capacityForSlot ts k := by
        simp [capacityForSlot, List.filter_cons, hb]
      rw [hcap2]

/-- C9: for every slot in the slot list, the admin panel's `countsBySlot` map
holds at that slot's id exactly `capacityForSlot(tickets, s.id)`. -/
theorem countsBySlot_agrees (slots : List Slot) (tickets : List Ticket) (s : Slot)
    (hs : s ∈ slots) :
    countsBySlot slots tickets s.id = some (capacityForSlot tickets s.id) := by
  unfold countsBySlot
  rw [countsBySlot_count s.id tickets _ 0 (countsBySlot_seed_mem slots s.id _ ⟨s, hs, rfl⟩)]
  simp

/-- Witness for `countsBySlot_agrees` at a concrete slot list and registry. -/
theorem countsBySlot_agrees_witness :
    (({ id := "S0", label := "L", startISO := 0, endISO := 10 } : Slot) ∈
      [({ id := "S0", label := "L", startISO := 0, endISO := 10 } : Slot)]) ∧
    countsBySlot [{ id := "S0", label := "L", startISO := 0, endISO := 10 }]
      [{ id := "A", name := "n", contact := "", slotId := "S0", slotStartISO := 0,
         slotEndISO := 10, createdAtISO := "T", notified := false },
       { id := "B", name := "m", contact := "", slotId := "S0", slotStartISO := 0,
         slotEndISO := 10, createdAtISO := "T", notified := false }]
      ({ id := "S0", label := "L", startISO := 0, endISO := 10 } : Slot).id =
      some (capacityForSlot
        [{ id := "A", name := "n", contact := "", slotId := "S0", slotStartISO := 0,
           slotEndISO := 10, createdAtISO := "T", notified := false },
         { id := "B", name := "m", contact := "", slotId := "S0", slotStartISO := 0,
           slotEndISO := 10, createdAtISO := "T", notified := false }]
        ({ id := "S0", label := "L", startISO := 0, endISO := 10 } : Slot).id) :=
  ⟨by decide, countsBySlot_agrees _ _ _ (by decide)⟩

/-! ### C3: the identifier generator -/

/-- Every character of the letter pool is an uppercase letter. -/
theorem lettersChars_upper :
    ∀ j : Fin lettersChars.length,
      ('A' ≤ lettersChars.get j && lettersChars.get j ≤ 'Z') = true := by decide

/-- Every character of the digit pool is a decimal digit. -/
theorem digitsChars_digit :
    ∀ j : Fin digitsChars.length,
      ('0' ≤ digitsChars.get j && digitsChars.get j ≤ '9') = true := by decide

/-- Every candidate the loop body of `randTicketId` builds has the fixed
5-letters-then-3-digits shape. -/
theorem genCandidate_shape (ls : Fin 5 → Fin 26) (ds : Fin 3 → Fin 10) :
    isTicketIdShape (genCandidate ls ds) = true := by
  unfold isTicketIdShape genCandidate
  simp only [Bool.and_eq_true, beq_iff_eq]
  refine ⟨⟨?_, ?_⟩, ?_⟩
  · simp [List.length_ofFn]
  · rw [List.take_left' (by simp [List.length_ofFn])]
    rw [List.all_eq_true]
    intro c hc
    rw [List.mem_ofFn] at hc
    obtain ⟨i, rfl⟩ := hc
    exact lettersChars_upper _
  · rw [List.drop_left' (by simp [List.length_ofFn])]
    rw [List.all_eq_true]
    intro c hc
    rw [List.mem_ofFn] at hc
    obtain ⟨i, rfl⟩ := hc
    exact digitsChars_digit _

/-- The retry loop of `randTicketId` returns the first candidate absent from
the used-set, whenever one occurs within the fuel bound. -/
theorem randTicketIdGo_spec (existing : List String) (cand : Nat → String) :
    ∀ (fuel start : Nat),
    (∃ j, j < fuel ∧ existing.contains (cand (start + j)) = false) →
    ∃ id, randTicketIdGo existing cand fuel start = some id ∧
      existing.contains id = false ∧ ∃ k, id = cand k := by
  intro fuel
  induction fuel with
  | zero => rintro start ⟨j, hj, _⟩; omega
  | succ fuel ih =>
    rintro start ⟨j, hj, hfresh⟩
    by_cases hc : existing.contains (cand start) = true
    · have hj0 : j ≠ 0 := by
        intro h0
        rw [h0, Nat.add_zero] at hfresh
        rw [hfresh] at hc
        cases hc
      have : ∃ j', j' < fuel ∧ existing.contains (cand (start + 1 + j')) = false :=
        ⟨j - 1, by omega, by
          have : start + 1 + (j - 1) = start + j := by omega
          rw [this]; exact hfresh⟩
      obtain ⟨id, hgo, hmem, k, hk⟩ := ih (start + 1) this
      refine ⟨id, ?_, hmem, k, hk⟩
      unfold randTicketIdGo
      rw [if_pos hc]
      exact hgo
    · refine ⟨cand start, ?_, by simpa using hc, start, rfl⟩
      unfold randTicketIdGo
      rw [if_neg hc]

/-- C3: whenever some candidate of the random stream is absent from the
used-set (within the fuel bound), `randTicketId` returns an identifier of the
fixed 5-uppercase-letters-plus-3-digits shape that is not in the used-set —
the loop rejects colliding candidates and retries. -/
theorem randTicketId_spec (existing : List String)
    (ls : Nat → Fin 5 → Fin 26) (ds : Nat → Fin 3 → Fin 10) (fuel : Nat)
    (h : ∃ j, j < fuel ∧ existing.contains (genCandidate (ls j) (ds j)) = false) :
    ∃ id, randTicketId existing ls ds fuel = some id ∧
      isTicketIdShape id = true ∧ existing.contains id = false := by
  obtain ⟨j, hj, hfresh⟩ := h
  obtain ⟨id, hgo, hmem, k, hk⟩ :=
    randTicketIdGo_spec existing (fun k => genCandidate (ls k) (ds k)) fuel 0
      ⟨j, hj, by simpa using hfresh⟩
  exact ⟨id, hgo, hk ▸ genCandidate_shape (ls k) (ds k), hmem⟩

/-- Witness for `randTicketId_spec`: the first candidate collides with the
used-set and the generator would return the next one. -/
theorem randTicketId_spec_witness :
    (∃ j, j < 2 ∧ (["AAAAA000"] : List String).contains
      (genCandidate ((fun _ _ => 1) j) ((fun _ _ => 1) j)) = false) ∧
    ∃ id, randTicketId ["AAAAA000"] (fun _ _ => 1) (fun _ _ => 1) 2 = some id ∧
      isTicketIdShape id = true ∧ (["AAAAA000"] : List String).contains id = false :=
  ⟨⟨0, by omega, by decide⟩,
    randTicketId_spec ["AAAAA000"] (fun _ _ => 1) (fun _ _ => 1) 2 ⟨0, by omega, by decide⟩⟩

/-! ### C1: the slot builder -/

/-- Unfolding of the `buildSlots` loop into a closed form: with positive slot
width and enough fuel, the loop emits one full-width slot per step of the
cursor, `⌈(endT - t) / m⌉` slots in all. -/
theorem buildSlotsGo_eq (date : String) (endT m : Nat) (hm : 1 ≤ m) :
    ∀ (fuel t idx : Nat), endT - t ≤ fuel →
    buildSlotsGo date endT m fuel t idx =
      (List.range ((endT - t + m - 1) / m)).map
        (fun k => mkSlot date m (t + k * m) (idx + k)) := by
  intro fuel
  induction fuel with
  | zero =>
    intro t idx hfuel
    have hd : endT - t = 0 := by omega
    rw [hd]
    have : (0 + m - 1) / m = 0 := Nat.div_eq_of_lt (by omega)
    rw [this]
    rfl
  | succ fuel ih =>
    intro t idx hfuel
    by_cases ht : t < endT
    · have hd1 : 1 ≤ endT - t := by omega
      have hceil : (endT - t + m - 1) / m = (endT - (t + m) + m - 1) / m + 1 := by
        have h1 : endT - t + m - 1 = (endT - t - 1) + m := by omega
        rw [h1, Nat.add_div_right _ (by omega)]
        congr 1
        by_cases hdm : endT - t ≤ m
        · have h2 : endT - (t + m) = 0 := by omega
          rw [h2]
          have h3 : endT - t - 1 < m := by omega
          rw [Nat.div_eq_of_lt h3, Nat.div_eq_of_lt (by omega)]
        · have h2 : endT - (t + m) + m - 1 = endT - t - 1 := by omega
          rw [h2]
      show (if t < endT then
          mkSlot date m t idx :: buildSlotsGo date endT m fuel (t + m) (idx + 1)
        else []) = _
      rw [if_pos ht, hceil, List.range_succ_eq_map, List.map_cons, List.map_map]
      congr 1
      · simp [mkSlot]
      · rw [ih (t + m) (idx + 1) (by omega)]
        apply List.map_congr_left
        intro k _
        simp only [Function.comp_apply, Nat.succ_eq_add_one]
        have e1 : t + m + k * m = t + (k + 1) * m := by ring
        have e2 : idx + 1 + k = idx + (k + 1) := by omega
        rw [e1, e2]
    · have hd : endT - t = 0 := by omega
      rw [hd]
      have : (0 + m - 1) / m = 0 := Nat.div_eq_of_lt (by omega)
      rw [this]
      show (if t < endT then
          mkSlot date m t idx :: buildSlotsGo date endT m fuel (t + m) (idx + 1)
        else []) = _
      rw [if_neg ht]
      rfl

/-- Closed form of `buildSlots` for positive slot width. -/
theorem buildSlots_eq (s : Settings) (hm : 1 ≤ s.slotMinutes) :
    buildSlots s =
      (List.range ((s.schedule.endT - s.schedule.start + s.slotMinutes - 1) / s.slotMinutes)).map
        (fun k => mkSlot s.schedule.date s.slotMinutes
          (s.schedule.start + k * s.slotMinutes) k) := by
  unfold buildSlots
  rw [buildSlotsGo_eq _ _ _ hm _ _ _ (le_refl _)]
  apply List.map_congr_left
  intro k _
  rw [Nat.zero_add]

/-- Indexing into `buildSlots`: the `i`-th slot exists exactly below the ceil
count and is the `i`-th full-width window. -/
theorem buildSlots_getIdx (s : Settings) (hm : 1 ≤ s.slotMinutes) (i : Nat) (sl : Slot)
    (hi : (buildSlots s)[i]? = some sl) :
    i < (s.schedule.endT - s.schedule.start + s.slotMinutes - 1) / s.slotMinutes ∧
    sl = mkSlot s.schedule.date s.slotMinutes (s.schedule.start + i * s.slotMinutes) i := by
  rw [buildSlots_eq s hm, List.getElem?_map] at hi
  by_cases hin :
      i < (s.schedule.endT - s.schedule.start + s.slotMinutes - 1) / s.slotMinutes
  · rw [List.getElem?_range hin] at hi
    simp only [Option.map_some', Option.some.injEq] at hi
    exact ⟨hin, hi.symm⟩
  · rw [List.getElem?_eq_none (by simpa using hin)] at hi
    cases hi

/-- Below the ceil count, a slot's start stays strictly before the schedule
end. -/
theorem buildSlots_start_lt (d m i : Nat) (hm : 1 ≤ m) (hd : 1 ≤ d)
    (hi : i < (d + m - 1) / m) : i * m < d := by
  have h1 : d + m - 1 = (d - 1) + m := by omega
  have h2 : (d + m - 1) / m = (d - 1) / m + 1 := by
    rw [h1, Nat.add_div_right _ (by omega)]
  have h3 : i ≤ (d - 1) / m := by omega
  have h4 : i * m ≤ (d - 1) / m * m := Nat.mul_le_mul_right _ h3
  have h5 : (d - 1) / m * m ≤ d - 1 := Nat.div_mul_le_self _ _
  omega

/-- C1 (amended): with `scheduleEnd > scheduleStart` and positive
`slotMinutes`, `buildSlots` produces exactly `⌈(end-start)/slotMinutes⌉`
slots, each of exactly `slotMinutes` duration, contiguous and non-overlapping,
each starting inside `[scheduleStart, scheduleEnd)`; when the width does not
divide the range the final (full-length) slot runs past `scheduleEnd`. -/
theorem buildSlots_spec (s : Settings)
    (h1 : s.schedule.start < s.schedule.endT) (hm : 1 ≤ s.slotMinutes) :
    (buildSlots s).length =
      (s.schedule.endT - s.schedule.start + s.slotMinutes - 1) / s.slotMinutes ∧
    (∀ (i : Nat) (sl : Slot), (buildSlots s)[i]? = some sl →
      sl.startISO = s.schedule.start + i * s.slotMinutes ∧
      sl.endISO = sl.startISO + s.slotMinutes ∧
      s.schedule.start ≤ sl.startISO ∧ sl.startISO < s.schedule.endT) ∧
    (∀ (i : Nat) (sl sl' : Slot), (buildSlots s)[i]? = some sl →
      (buildSlots s)[i + 1]? = some sl' → sl.endISO = sl'.startISO) ∧
    (∀ (i j : Nat) (sl sl' : Slot), i < j → (buildSlots s)[i]? = some sl →
      (buildSlots s)[j]? = some sl' → sl.endISO ≤ sl'.startISO) := by
  refine ⟨?_, ?_, ?_, ?_⟩
  · rw [buildSlots_eq s hm]
    simp
  · intro i sl hi
    obtain ⟨hin, rfl⟩ := buildSlots_getIdx s hm i sl hi
    refine ⟨rfl, rfl, Nat.le_add_right _ _, ?_⟩
    have := buildSlots_start_lt (s.schedule.endT - s.schedule.start) s.slotMinutes i hm
      (by omega) hin
    show s.schedule.start + i * s.slotMinutes < s.schedule.endT
    omega
  · intro i sl sl' hi hi'
    obtain ⟨_, rfl⟩ := buildSlots_getIdx s hm i sl hi
    obtain ⟨_, rfl⟩ := buildSlots_getIdx s hm (i + 1) sl' hi'
    show s.schedule.start + i * s.slotMinutes + s.slotMinutes =
      s.schedule.start + (i + 1) * s.slotMinutes
    ring
  · intro i j sl sl' hij hi hj
    obtain ⟨_, rfl⟩ := buildSlots_getIdx s hm i sl hi
    obtain ⟨_, rfl⟩ := buildSlots_getIdx s hm j sl' hj
    show s.schedule.start + i * s.slotMinutes + s.slotMinutes ≤
      s.schedule.start + j * s.slotMinutes
    have : (i + 1) * s.slotMinutes ≤ j * s.slotMinutes :=
      Nat.mul_le_mul_right _ (by omega)
    have h2 : i * s.slotMinutes + s.slotMinutes ≤ j * s.slotMinutes := by
      have e : (i + 1) * s.slotMinutes = i * s.slotMinutes + s.slotMinutes := by ring
      omega
    omega

/-- Witness for `buildSlots_spec` at the concrete example settings. -/
theorem buildSlots_spec_witness :
    (exSettings.schedule.start < exSettings.schedule.endT ∧ 1 ≤ exSettings.slotMinutes) ∧
    ((buildSlots exSettings).length =
      (exSettings.schedule.endT - exSettings.schedule.start + exSettings.slotMinutes - 1) /
        exSettings.slotMinutes ∧
    (∀ (i : Nat) (sl : Slot), (buildSlots exSettings)[i]? = some sl →
      sl.startISO = exSettings.schedule.start + i * exSettings.slotMinutes ∧
      sl.endISO = sl.startISO + exSettings.slotMinutes ∧
      exSettings.schedule.start ≤ sl.startISO ∧ sl.startISO < exSettings.schedule.endT) ∧
    (∀ (i : Nat) (sl sl' : Slot), (buildSlots exSettings)[i]? = some sl →
      (buildSlots exSettings)[i + 1]? = some sl' → sl.endISO = sl'.startISO) ∧
    (∀ (i j : Nat) (sl sl' : Slot), i < j → (buildSlots exSettings)[i]? = some sl →
      (buildSlots exSettings)[j]? = some sl' → sl.endISO ≤ sl'.startISO)) :=
  ⟨⟨by decide, by decide⟩, buildSlots_spec exSettings (by decide) (by decide)⟩

/-- C1 counterexample: on a 25-minute range with 10-minute slots the builder
emits 3 slots, not `floor(25/10) = 2`, and the last slot ends past the
schedule end, so slots are not all contained in `[scheduleStart, scheduleEnd)`
and an under-length remainder does yield a (full-length) slot. -/
theorem buildSlots_floor_counterexample :
    exSettings.schedule.start < exSettings.schedule.endT ∧
    1 ≤ exSettings.slotMinutes ∧
    (buildSlots exSettings).length ≠
      (exSettings.schedule.endT - exSettings.schedule.start) / exSettings.slotMinutes ∧
    ∃ sl ∈ buildSlots exSettings, ¬ sl.endISO ≤ exSettings.schedule.endT := by
  decide

/-! ### C7: export format -/

/-- Two strings with the same character data are equal. -/
theorem str_data_eq (a b : String) (h : a.data = b.data) : a = b := by
  cases a
  cases b
  exact congrArg String.mk h

/-- On a nonempty registry the export is the header line followed by one
line per ticket. -/
theorem exportCSV_eq_rows (ts : List Ticket) (h : ts ≠ []) :
    exportCSVText ts = joinSep "\n" (csvHeader :: ts.map rowLine) := by
  cases ts with
  | nil => cases h rfl
  | cons t0 rest =>
    unfold exportCSVText
    simp only [List.map_cons]
    unfold toCSV
    simp only [List.map_cons, List.map_map]
    rfl

/-- The escaping of `toCSV` is quote-wrapping with inner quotes doubled. -/
theorem esc_eq (v : String) :
    esc v = "\"" ++ (⟨escQuotes v.data⟩ : String) ++ "\"" := by
  apply str_data_eq
  rw [String.data_append, String.data_append]
  rfl

/-- C7 (amended): for every nonempty ticket list the export begins with the
header line, has exactly one data row per ticket, and every field is wrapped
in double quotes with internal quotes doubled; the empty list instead
produces the empty string (see the counterexample). -/
theorem exportCSV_format (ts : List Ticket) (h : ts ≠ []) :
    exportCSVText ts = joinSep "\n" (csvHeader :: ts.map rowLine) ∧
    ∀ t : Ticket, rowLine t = joinSep ","
      ([t.id, t.name, t.contact, slotLabel t, t.slotId, t.createdAtISO].map
        (fun v => "\"" ++ (⟨escQuotes v.data⟩ : String) ++ "\"")) := by
  refine ⟨exportCSV_eq_rows ts h, fun t => ?_⟩
  unfold rowLine
  simp only [List.map_cons, List.map_nil, esc_eq]

/-- Witness for `exportCSV_format` at a concrete one-ticket registry. -/
theorem exportCSV_format_witness :
    ([exTicketOrphan] ≠ []) ∧
    (exportCSVText [exTicketOrphan] =
      joinSep "\n" (csvHeader :: [exTicketOrphan].map rowLine) ∧
    ∀ t : Ticket, rowLine t = joinSep ","
      ([t.id, t.name, t.contact, slotLabel t, t.slotId, t.createdAtISO].map
        (fun v => "\"" ++ (⟨escQuotes v.data⟩ : String) ++ "\""))) :=
  ⟨by decide, exportCSV_format [exTicketOrphan] (by decide)⟩

/-- C7 counterexample: for the empty ticket list the export is the empty
string, which does not begin with the header line. -/
theorem exportCSV_empty_counterexample :
    exportCSVText [] = "" ∧ ¬ ∃ r : String, exportCSVText [] = csvHeader ++ r := by
  refine ⟨rfl, ?_⟩
  rintro ⟨r, hr⟩
  have hd := congrArg String.data hr
  rw [String.data_append] at hd
  have hnil : csvHeader.data ++ r.data = [] := hd.symm
  have := (List.append_eq_nil.mp hnil).1
  exact absurd this (by decide)

/-! ### C5 / C10: CSV import -/

/-- With an empty slot list both the `find` and `slots[0]` are `undefined`. -/
theorem resolveSlot_nil (sid : Option (List Char)) : resolveSlot [] sid = none := by
  cases sid <;> rfl

/-- With an empty slot list every import row throws on `slot.id`. -/
theorem importRow_nil (fresh now : String) (header : List (List Char)) (line : List Char) :
    importRow [] fresh now header line = .error () := by
  unfold importRow
  simp only [resolveSlot_nil]

/-- C10: with an empty current slot list, importing a CSV with a header and
at least one nonempty data row throws (reading `slot.id` of `undefined`)
before `setTickets` runs, leaving the registry unchanged. -/
theorem importCSV_empty_slots (tickets : List Ticket) (fresh : Nat → String) (now : String)
    (text : String) (hline r : List Char) (rest : List (List Char))
    (hlines : (splitLines text.data).filter (fun l => l ≠ []) = hline :: r :: rest) :
    importCSVText [] tickets fresh now text = .error () ∧
    registryAfterImport [] tickets fresh now text = tickets := by
  have h1 : importCSVText [] tickets fresh now text = .error () := by
    unfold importCSVText
    rw [hlines]
    show importRows [] fresh now (headerOf hline) 0 (r :: rest) = .error ()
    unfold importRows
    rw [importRow_nil]
  refine ⟨h1, ?_⟩
  unfold registryAfterImport
  rw [h1]

/-- Witness for `importCSV_empty_slots` on a concrete two-line CSV text. -/
theorem importCSV_empty_slots_witness :
    ((splitLines ("slot_id\nX" : String).data).filter (fun l => l ≠ []) =
      "slot_id".data :: "X".data :: []) ∧
    (importCSVText [] [exTicketOrphan] (fun _ => "F") "NOW" "slot_id\nX" = .error () ∧
      registryAfterImport [] [exTicketOrphan] (fun _ => "F") "NOW" "slot_id\nX" =
        [exTicketOrphan]) :=
  ⟨by decide, importCSV_empty_slots [exTicketOrphan] (fun _ => "F") "NOW" "slot_id\nX"
    "slot_id".data "X".data [] (by decide)⟩

/-- When the slot reference of a row matches nothing, the lookup falls back to
the first slot. -/
theorem resolveSlot_fallback (s0 : Slot) (stail : List Slot) (sid : Option (List Char))
    (h : ∀ sl ∈ s0 :: stail, sid ≠ some sl.id.data) :
    resolveSlot (s0 :: stail) sid = some s0 := by
  unfold resolveSlot
  cases sid with
  | none => rfl
  | some s =>
    have hfind : (s0 :: stail).find? (fun sl => sl.id.data == s) = none := by
      rw [List.find?_eq_none]
      intro x hx
      simp only [beq_iff_eq]
      intro hxs
      exact h x hx (by rw [hxs])
    show ((s0 :: stail).find? (fun sl => sl.id.data == s)).orElse
      (fun _ => (s0 :: stail).head?) = some s0
    rw [hfind]
    rfl

/-- With a nonempty slot list the slot lookup of an import row never fails. -/
theorem resolveSlot_cons_isSome (s0 : Slot) (stail : List Slot) (sid : Option (List Char)) :
    ∃ slot, resolveSlot (s0 :: stail) sid = some slot := by
  unfold resolveSlot
  cases sid with
  | none => exact ⟨s0, rfl⟩
  | some s =>
    show ∃ slot, ((s0 :: stail).find? (fun sl => sl.id.data == s)).orElse
      (fun _ => (s0 :: stail).head?) = some slot
    cases hf : (s0 :: stail).find? (fun sl => sl.id.data == s) with
    | none => exact ⟨s0, rfl⟩
    | some x => exact ⟨x, rfl⟩

/-- With a nonempty slot list every import row produces a ticket, and a row
whose slot reference matches no current slot gets the first slot's id and
time bounds. -/
theorem importRow_ok (s0 : Slot) (stail : List Slot) (fresh now : String)
    (header : List (List Char)) (line : List Char) :
    ∃ t, importRow (s0 :: stail) fresh now header line = .ok t ∧
      ((∀ sl ∈ s0 :: stail,
          colAt (parseCols line) (colIdx header "slot_id") ≠ some sl.id.data) →
        t.slotId = s0.id ∧ t.slotStartISO = s0.startISO ∧ t.slotEndISO = s0.endISO) := by
  obtain ⟨slot, hslot⟩ := resolveSlot_cons_isSome s0 stail
    (colAt (parseCols line) (colIdx header "slot_id"))
  refine ⟨{ id := jsOr (colAt (parseCols line) (colIdx header "id")) fresh
            name := jsOr (colAt (parseCols line) (colIdx header "name")) ""
            contact := jsOr (colAt (parseCols line) (colIdx header "contact")) ""
            slotId := slot.id
            slotStartISO := slot.startISO
            slotEndISO := slot.endISO
            createdAtISO := jsOr (colAt (parseCols line) (colIdx header "created_at")) now
            notified := false }, ?_, ?_⟩
  · unfold importRow
    simp only [hslot]
  · intro h
    have hfb := resolveSlot_fallback s0 stail _ h
    rw [hfb] at hslot
    have hs : s0 = slot := by
      injection hslot
    rw [← hs]
    exact ⟨rfl, rfl, rfl⟩

/-- The import loop over the data rows, with a nonempty slot list: it always
succeeds, emits exactly one ticket per data row, and rows with unresolvable
slot references are reassigned to the first slot. -/
theorem importRows_total (s0 : Slot) (stail : List Slot) (fresh : Nat → String) (now : String)
    (header : List (List Char)) :
    ∀ (rows : List (List Char)) (i : Nat),
    ∃ out, importRows (s0 :: stail) fresh now header i rows = .ok out ∧
      out.length = rows.length ∧
      ∀ (j : Nat) (tj : Ticket) (lj : List Char), out[j]? = some tj → rows[j]? = some lj →
        (∀ sl ∈ s0 :: stail,
          colAt (parseCols lj) (colIdx header "slot_id") ≠ some sl.id.data) →
        tj.slotId = s0.id ∧ tj.slotStartISO = s0.startISO ∧ tj.slotEndISO = s0.endISO := by
  intro rows
  induction rows with
  | nil =>
    intro i
    refine ⟨[], rfl, rfl, ?_⟩
    intro j tj lj htj
    rw [List.getElem?_eq_none (by simp)] at htj
    cases htj
  | cons l ls ih =>
    intro i
    obtain ⟨t, hrow, hprop⟩ := importRow_ok s0 stail (fresh i) now header l
    obtain ⟨out, hrows, hlen, hget⟩ := ih (i + 1)
    refine ⟨t :: out, ?_, by simp [hlen], ?_⟩
    · unfold importRows
      rw [hrow, hrows]
    · intro j tj lj htj hlj
      cases j with
      | zero =>
        rw [List.getElem?_cons_zero, Option.some.injEq] at htj hlj
        rw [← htj, ← hlj]
        exact hprop
      | succ j =>
        rw [List.getElem?_cons_succ] at htj hlj
        exact hget j tj lj htj hlj

/-- C5: for a nonempty current slot list, importing a CSV wholesale-replaces
the registry with exactly one ticket per data row (no merge with the current
tickets), and every row whose `slot_id` does not match any current slot is
assigned the first slot's id, start and end. -/
theorem importCSV_replaces_and_falls_back (s0 : Slot) (stail : List Slot)
    (tickets : List Ticket) (fresh : Nat → String) (now : String) (text : String)
    (hline : List Char) (rows : List (List Char))
    (hlines : (splitLines text.data).filter (fun l => l ≠ []) = hline :: rows) :
    ∃ out, importCSVText (s0 :: stail) tickets fresh now text = .ok out ∧
      registryAfterImport (s0 :: stail) tickets fresh now text = out ∧
      out.length = rows.length ∧
      ∀ (j : Nat) (tj : Ticket) (lj : List Char), out[j]? = some tj → rows[j]? = some lj →
        (∀ sl ∈ s0 :: stail,
          colAt (parseCols lj) (colIdx (headerOf hline) "slot_id") ≠ some sl.id.data) →
        tj.slotId = s0.id ∧ tj.slotStartISO = s0.startISO ∧ tj.slotEndISO = s0.endISO := by
  obtain ⟨out, hrows, hlen, hget⟩ :=
    importRows_total s0 stail fresh now (headerOf hline) rows 0
  have h1 : importCSVText (s0 :: stail) tickets fresh now text = .ok out := by
    unfold importCSVText
    rw [hlines]
    exact hrows
  refine ⟨out, h1, ?_, hlen, hget⟩
  unfold registryAfterImport
  rw [h1]

/-- Witness for `importCSV_replaces_and_falls_back`: one data row whose
`slot_id` column is `"NOPE"`, matching no current slot. -/
theorem importCSV_replaces_witness :
    ((splitLines ("slot_id\n\"NOPE\"" : String).data).filter (fun l => l ≠ []) =
      "slot_id".data :: ["\"NOPE\"".data]) ∧
    (∃ out, importCSVText [exSlotA] [exTicketOrphan] (fun _ => "F") "NOW"
        "slot_id\n\"NOPE\"" = .ok out ∧
      registryAfterImport [exSlotA] [exTicketOrphan] (fun _ => "F") "NOW"
        "slot_id\n\"NOPE\"" = out ∧
      out.length = ["\"NOPE\"".data].length ∧
      ∀ (j : Nat) (tj : Ticket) (lj : List Char), out[j]? = some tj →
        ["\"NOPE\"".data][j]? = some lj →
        (∀ sl ∈ [exSlotA],
          colAt (parseCols lj) (colIdx (headerOf "slot_id".data) "slot_id") ≠
            some sl.id.data) →
        tj.slotId = exSlotA.id ∧ tj.slotStartISO = exSlotA.startISO ∧
          tj.slotEndISO = exSlotA.endISO) :=
  ⟨by decide, importCSV_replaces_and_falls_back exSlotA [] [exTicketOrphan]
    (fun _ => "F") "NOW" "slot_id\n\"NOPE\"" "slot_id".data ["\"NOPE\"".data] (by decide)⟩

/-! ### C4: CSV round trip — parser lemmas -/

/-- Rebuilding a string from its characters is the identity. -/
theorem str_eta (s : String) : (⟨s.data⟩ : String) = s := by
  cases s
  rfl

/-- A nonempty string has nonempty character data. -/
theorem str_ne_data (s : String) (h : s ≠ "") : s.data ≠ [] := by
  intro hd
  exact h (str_data_eq s "" hd)

/-- Escaping introduces only double quotes. -/
theorem mem_escQuotes (v : List Char) (c : Char) (h : c ∈ escQuotes v) : c = '"' ∨ c ∈ v := by
  induction v with
  | nil => cases h
  | cons a as ih =>
    unfold escQuotes at h
    by_cases ha : a = '"'
    · rw [if_pos ha] at h
      rcases List.mem_cons.mp h with h1 | h'
      · exact Or.inl h1
      rcases List.mem_cons.mp h' with h1 | h''
      · exact Or.inl h1
      rcases ih h'' with h1 | h1
      · exact Or.inl h1
      · exact Or.inr (List.mem_cons_of_mem _ h1)
    · rw [if_neg ha] at h
      rcases List.mem_cons.mp h with h1 | h'
      · exact Or.inr (h1 ▸ List.mem_cons_self _ _)
      rcases ih h' with h1 | h1
      · exact Or.inl h1
      · exact Or.inr (List.mem_cons_of_mem _ h1)

/-- The data of an escaped field: opening quote, doubled-quote body, closing
quote. -/
theorem esc_data (f : String) : (esc f).data = '"' :: (escQuotes f.data ++ ['"']) := rfl

/-- An escaped field spans at least the two wrapping quotes. -/
theorem esc_data_len (f : String) : 2 ≤ (esc f).data.length := by
  rw [esc_data]
  simp

/-- A doubled quote is consumed as body content whenever the remainder still
closes; otherwise the first quote of the pair closes the field. -/
theorem quotedBody_cons_pair (cs : List Char) :
    quotedBody ('"' :: '"' :: cs) = (match quotedBody cs with
      | some (b, r) => some ('"' :: '"' :: b, r)
      | none => some (['"'], '"' :: cs)) := rfl

/-- A single quote closes the field in front of a non-quote character. -/
theorem quotedBody_quote_close (r : Char) (rs : List Char) (hne : r ≠ '"') :
    quotedBody ('"' :: r :: rs) = some (['"'], r :: rs) := by
  have he : quotedBody ('"' :: r :: rs) = if r = '"' then (match quotedBody rs with
      | some (b, r') => some ('"' :: '"' :: b, r')
      | none => some (['"'], r :: rs)) else some (['"'], r :: rs) := rfl
  rw [he, if_neg hne]

/-- A single quote at the end of the input closes the field. -/
theorem quotedBody_quote_nil : quotedBody ['"'] = some (['"'], []) := rfl

/-- A non-quote character is consumed into the body. -/
theorem quotedBody_cons_ne (a : Char) (cs : List Char) (ha : a ≠ '"') :
    quotedBody (a :: cs) = (match quotedBody cs with
      | some (b, r) => some (a :: b, r)
      | none => none) := by
  rw [quotedBody.eq_def]
  show (if a = '"' then
      match cs with
      | c2 :: cs2 =>
        if c2 = '"' then
          match quotedBody cs2 with
          | some (b, r) => some ('"' :: '"' :: b, r)
          | none => some (['"'], cs)
        else some (['"'], cs)
      | [] => some (['"'], [])
    else
      match quotedBody cs with
      | some (b, r) => some (a :: b, r)
      | none => none) = _
  rw [if_neg ha]

/-- The quoted-field matcher consumes exactly an escaped body followed by its
closing quote, whenever the remainder does not start with another quote. -/
theorem quotedBody_esc (v : List Char) :
    ∀ rest : List Char, rest.head? ≠ some '"' →
    quotedBody (escQuotes v ++ '"' :: rest) = some (escQuotes v ++ ['"'], rest) := by
  induction v with
  | nil =>
    intro rest hr
    show quotedBody ('"' :: rest) = some (['"'], rest)
    cases rest with
    | nil => exact quotedBody_quote_nil
    | cons r rs =>
      have hrne : r ≠ '"' := by
        intro h
        exact hr (by rw [h]; rfl)
      exact quotedBody_quote_close r rs hrne
  | cons a as ih =>
    intro rest hr
    by_cases ha : a = '"'
    · subst ha
      show quotedBody ('"' :: '"' :: (escQuotes as ++ '"' :: rest)) =
        some ('"' :: '"' :: (escQuotes as ++ ['"']), rest)
      rw [quotedBody_cons_pair, ih rest hr]
    · have he : escQuotes (a :: as) = a :: escQuotes as := by
        rw [escQuotes]
        rw [if_neg ha]
      rw [he]
      simp only [List.cons_append]
      rw [quotedBody_cons_ne a _ ha, ih rest hr]

/-- One-step equation for the alternation matcher. -/
theorem quotedMatch_cons (c : Char) (cs : List Char) :
    quotedMatch (c :: cs) =
      if c = '"' then (quotedBody cs).map (fun p => ('"' :: p.1, p.2)) else none := rfl

/-- The alternation matches a whole escaped field at the start of the input,
whenever what follows does not begin with a quote. -/
theorem quotedMatch_esc (f : String) (rest : List Char) (hr : rest.head? ≠ some '"') :
    quotedMatch ((esc f).data ++ rest) = some ((esc f).data, rest) := by
  rw [esc_data]
  have hassoc : ('"' :: (escQuotes f.data ++ ['"'])) ++ rest =
      '"' :: (escQuotes f.data ++ '"' :: rest) := by
    simp
  rw [hassoc]
  rw [quotedMatch_cons, if_pos rfl, quotedBody_esc f.data rest hr]
  rfl

/-- The scanner yields nothing on an empty line, whatever the fuel. -/
theorem matchAll_nil (fuel : Nat) : matchAll fuel [] = [] := by
  cases fuel <;> rfl

/-- A scanner step across a successful quoted-field match. -/
theorem matchAll_succ_quoted (fuel : Nat) (c : Char) (cs m r : List Char)
    (hq : quotedMatch (c :: cs) = some (m, r)) :
    matchAll (fuel + 1) (c :: cs) = m :: matchAll fuel r := by
  show (match quotedMatch (c :: cs) with
    | some (m, r) => m :: matchAll fuel r
    | none =>
      if c = ',' then matchAll fuel cs
      else ((c :: cs).takeWhile (fun x => x ≠ ',')) ::
        matchAll fuel ((c :: cs).dropWhile (fun x => x ≠ ','))) = m :: matchAll fuel r
  rw [hq]

/-- A scanner step across a separating comma. -/
theorem matchAll_succ_comma (fuel : Nat) (cs : List Char) :
    matchAll (fuel + 1) (',' :: cs) = matchAll fuel cs := by
  have hq : quotedMatch (',' :: cs) = none := by
    rw [quotedMatch_cons, if_neg (by decide : ¬(',' = '"'))]
  show (match quotedMatch (',' :: cs) with
    | some (m, r) => m :: matchAll fuel r
    | none =>
      if ',' = ',' then matchAll fuel cs
      else ((',' :: cs).takeWhile (fun x => x ≠ ',')) ::
        matchAll fuel ((',' :: cs).dropWhile (fun x => x ≠ ','))) = matchAll fuel cs
  rw [hq, if_pos rfl]

/-- The scanner decomposes a joined list of escaped fields into exactly those
fields, in order. -/
theorem matchAll_escFields : ∀ (fs : List String) (f : String) (fuel : Nat),
    (joinSep "," ((f :: fs).map esc)).data.length ≤ fuel →
    matchAll fuel (joinSep "," ((f :: fs).map esc)).data =
      (f :: fs).map (fun g => (esc g).data) := by
  intro fs
  induction fs with
  | nil =>
    intro f fuel hlen
    show matchAll fuel (esc f).data = [(esc f).data]
    cases fuel with
    | zero =>
      have := esc_data_len f
      exfalso
      have hl : (esc f).data.length ≤ 0 := hlen
      omega
    | succ fuel =>
      have hq := quotedMatch_esc f [] (by simp)
      rw [List.append_nil] at hq
      rw [esc_data] at hq ⊢
      rw [matchAll_succ_quoted fuel _ _ _ _ hq]
      rw [matchAll_nil]
  | cons g gs ih =>
    intro f fuel hlen
    have hjoin : (joinSep "," ((f :: g :: gs).map esc)).data =
        (esc f).data ++ ',' :: (joinSep "," ((g :: gs).map esc)).data := by
      show (esc f ++ "," ++ joinSep "," ((g :: gs).map esc)).data = _
      rw [String.data_append, String.data_append, List.append_assoc]
      rfl
    rw [hjoin] at hlen ⊢
    rw [List.length_append, List.length_cons] at hlen
    have hfl := esc_data_len f
    cases fuel with
    | zero => omega
    | succ fuel =>
      have hq := quotedMatch_esc f (',' :: (joinSep "," ((g :: gs).map esc)).data)
        (by
          intro h
          exact absurd (Option.some.inj h) (by decide))
      rw [esc_data] at hq ⊢
      simp only [List.cons_append] at hq ⊢
      rw [matchAll_succ_quoted fuel _ _ _ _ hq]
      congr 1
      cases fuel with
      | zero => omega
      | succ fuel2 =>
        rw [matchAll_succ_comma fuel2 _]
        have := ih g fuel2 (by omega)
        rw [this]

/-- Stripping the edge quotes of an escaped field recovers its doubled body. -/
theorem stripEdge_esc (f : String) : stripEdgeQuotes (esc f).data = escQuotes f.data := by
  rw [esc_data]
  simp [stripEdgeQuotes, List.getLast?_concat, List.dropLast_concat]

/-- Escaping an empty character list is the only way to get an empty result. -/
theorem escQuotes_eq_nil (v : List Char) (h : escQuotes v = []) : v = [] := by
  cases v with
  | nil => rfl
  | cons c cs =>
    exfalso
    rw [escQuotes] at h
    by_cases hc : c = '"'
    · rw [if_pos hc] at h
      cases h
    · rw [if_neg hc] at h
      cases h

/-- Collapsing doubled quotes undoes quote doubling. -/
theorem unesc_escQuotes (v : List Char) : unescQuotes (escQuotes v) = v := by
  induction v with
  | nil => rfl
  | cons a as ih =>
    by_cases ha : a = '"'
    · subst ha
      show unescQuotes ('"' :: '"' :: escQuotes as) = '"' :: as
      show '"' :: unescQuotes (escQuotes as) = '"' :: as
      rw [ih]
    · have he : escQuotes (a :: as) = a :: escQuotes as := by
        rw [escQuotes]
        rw [if_neg ha]
      rw [he]
      cases hX : escQuotes as with
      | nil =>
        have : as = [] := escQuotes_eq_nil as hX
        subst this
        rfl
      | cons x xs =>
        have hu : unescQuotes (a :: x :: xs) = a :: unescQuotes (x :: xs) := by
          rw [unescQuotes.eq_def]
          show (if a = '"' then
              if x = '"' then '"' :: unescQuotes xs else a :: unescQuotes (x :: xs)
            else a :: unescQuotes (x :: xs)) = _
          rw [if_neg ha]
        rw [hu, ← hX, ih]

/-- Parsing the columns of an exported line recovers the raw field values. -/
theorem parseCols_row (fs : List String) (f : String) :
    parseCols (joinSep "," ((f :: fs).map esc)).data = (f :: fs).map String.data := by
  unfold parseCols
  rw [matchAll_escFields fs f _ (le_refl _)]
  rw [List.map_map]
  apply List.map_congr_left
  intro g _
  show unescQuotes (stripEdgeQuotes (esc g).data) = g.data
  rw [stripEdge_esc, unesc_escQuotes]

/-- Character data of a joined field list, one step. -/
theorem joinSep_esc_data_cons2 (f g : String) (gs : List String) :
    (joinSep "," ((f :: g :: gs).map esc)).data =
      (esc f).data ++ ',' :: (joinSep "," ((g :: gs).map esc)).data := by
  show (esc f ++ "," ++ joinSep "," ((g :: gs).map esc)).data = _
  rw [String.data_append, String.data_append, List.append_assoc]
  rfl

/-- A joined list of escaped fields ends with the final closing quote. -/
theorem joinSep_esc_getLast : ∀ (fs : List String) (f : String),
    (joinSep "," ((f :: fs).map esc)).data.getLast? = some '"' := by
  intro fs
  induction fs with
  | nil =>
    intro f
    show (esc f).data.getLast? = some '"'
    rw [esc_data]
    show (('"' :: escQuotes f.data) ++ ['"']).getLast? = some '"'
    exact List.getLast?_concat _
  | cons g gs ih =>
    intro f
    rw [joinSep_esc_data_cons2]
    rw [show (',' :: (joinSep "," ((g :: gs).map esc)).data) =
      [','] ++ (joinSep "," ((g :: gs).map esc)).data from rfl]
    rw [List.getLast?_append, List.getLast?_append, ih g]
    rfl

/-- Every character of a joined field list is a comma or comes from one of
the escaped fields. -/
theorem mem_joinSep_esc : ∀ (fs : List String) (f : String) (c : Char),
    c ∈ (joinSep "," ((f :: fs).map esc)).data →
    c = ',' ∨ ∃ g ∈ f :: fs, c ∈ (esc g).data := by
  intro fs
  induction fs with
  | nil =>
    intro f c h
    exact Or.inr ⟨f, List.mem_cons_self _ _, h⟩
  | cons g gs ih =>
    intro f c h
    rw [joinSep_esc_data_cons2] at h
    rcases List.mem_append.mp h with h1 | h2
    · exact Or.inr ⟨f, List.mem_cons_self _ _, h1⟩
    rcases List.mem_cons.mp h2 with h1 | h3
    · exact Or.inl h1
    rcases ih g c h3 with h1 | ⟨x, hx, hxe⟩
    · exact Or.inl h1
    · exact Or.inr ⟨x, List.mem_cons_of_mem _ hx, hxe⟩

/-- Every character of an escaped field is a quote or a field character. -/
theorem mem_esc (g : String) (c : Char) (h : c ∈ (esc g).data) : c = '"' ∨ c ∈ g.data := by
  rw [esc_data] at h
  rcases List.mem_cons.mp h with h1 | h'
  · exact Or.inl h1
  rcases List.mem_append.mp h' with h1 | h2
  · exact mem_escQuotes _ _ h1
  rcases List.mem_cons.mp h2 with h1 | h3
  · exact Or.inl h1
  · cases h3

/-- A digit character is never a line break. -/
theorem digitChar_ne_nl (d : Nat) (h : d < 10) : digitChar d ≠ '\n' := by
  interval_cases d <;> decide

/-- A two-digit rendering contains no line break. -/
theorem pad2_no_newline (n : Nat) : '\n' ∉ (pad2 n).data := by
  show '\n' ∉ [digitChar (n / 10 % 10), digitChar (n % 10)]
  intro h
  rcases List.mem_cons.mp h with h1 | h'
  · exact digitChar_ne_nl _ (Nat.mod_lt _ (by omega)) h1.symm
  rcases List.mem_cons.mp h' with h1 | h''
  · exact digitChar_ne_nl _ (Nat.mod_lt _ (by omega)) h1.symm
  · cases h''

/-- A wall-clock rendering contains no line break. -/
theorem hhmm_no_newline (n : Nat) : '\n' ∉ (hhmm n).data := by
  show '\n' ∉ (pad2 (n / 60 % 24) ++ ":" ++ pad2 (n % 60)).data
  rw [String.data_append, String.data_append]
  intro h
  rcases List.mem_append.mp h with h' | h2
  · rcases List.mem_append.mp h' with h1 | hc
    · exact pad2_no_newline _ h1
    · exact absurd hc (by decide)
  · exact pad2_no_newline _ h2

/-- A slot label contains no line break. -/
theorem slotLabel_no_newline (t : Ticket) : '\n' ∉ (slotLabel t).data := by
  unfold slotLabel
  rw [String.data_append, String.data_append]
  intro h
  rcases List.mem_append.mp h with h' | h2
  · rcases List.mem_append.mp h' with h1 | hd
    · exact hhmm_no_newline _ h1
    · exact absurd hd (by decide)
  · exact hhmm_no_newline _ h2

/-- An exported data line contains no line break when the ticket's fields
contain none. -/
theorem rowLine_no_newline (t : Ticket) (h : ticketFieldsNoNewline t) :
    '\n' ∉ (rowLine t).data := by
  intro hm
  have hm' : '\n' ∈ (joinSep ","
      ((t.id :: [t.name, t.contact, slotLabel t, t.slotId, t.createdAtISO]).map esc)).data := hm
  rcases mem_joinSep_esc _ _ _ hm' with hc | ⟨g, hg, hgesc⟩
  · exact absurd hc (by decide)
  rcases mem_esc g _ hgesc with hq | hgd
  · exact absurd hq (by decide)
  obtain ⟨h1, h2, h3, h4, h5⟩ := h
  simp only [List.mem_cons, List.not_mem_nil, or_false] at hg
  rcases hg with rfl | rfl | rfl | rfl | rfl | rfl
  · exact h1 hgd
  · exact h2 hgd
  · exact h3 hgd
  · exact slotLabel_no_newline t hgd
  · exact h4 hgd
  · exact h5 hgd

/-- An exported data line ends with a closing quote. -/
theorem rowLine_getLast (t : Ticket) : (rowLine t).data.getLast? = some '"' :=
  joinSep_esc_getLast [t.name, t.contact, slotLabel t, t.slotId, t.createdAtISO] t.id

/-- An exported data line is nonempty. -/
theorem rowLine_ne_nil (t : Ticket) : (rowLine t).data ≠ [] := by
  intro h
  have := rowLine_getLast t
  rw [h] at this
  cases this

/-- Without a line break the splitter yields a single line. -/
theorem splitLinesAux_no_newline (cs : List Char) :
    ∀ acc, '\n' ∉ cs → splitLinesAux cs acc = [acc.reverse ++ cs] := by
  induction cs with
  | nil =>
    intro acc _
    show [acc.reverse] = [acc.reverse ++ []]
    rw [List.append_nil]
  | cons c cs ih =>
    intro acc h
    have hc : c ≠ '\n' := fun hh => h (hh ▸ List.mem_cons_self _ _)
    rw [splitLinesAux]
    rw [if_neg hc]
    rw [ih (c :: acc) (fun hm => h (List.mem_cons_of_mem _ hm))]
    congr 1
    rw [List.reverse_cons, List.append_assoc]
    rfl

/-- The splitter cuts at the first line break, provided the line before it
has no break of its own and does not end in a carriage return. -/
theorem splitLinesAux_split (xs : List Char) :
    ∀ (acc rest : List Char), '\n' ∉ xs → (xs.reverse ++ acc).head? ≠ some '\r' →
    splitLinesAux (xs ++ '\n' :: rest) acc =
      (acc.reverse ++ xs) :: splitLinesAux rest [] := by
  induction xs with
  | nil =>
    intro acc rest _ hr
    rw [List.nil_append, splitLinesAux]
    rw [if_pos rfl]
    have hr' : acc.head? ≠ some '\r' := by simpa using hr
    rw [if_neg hr']
    rw [List.append_nil]
  | cons x xs ih =>
    intro acc rest h hr
    have hx : x ≠ '\n' := fun hh => h (hh ▸ List.mem_cons_self _ _)
    rw [List.cons_append, splitLinesAux]
    rw [if_neg hx]
    have hr2 : (xs.reverse ++ (x :: acc)).head? ≠ some '\r' := by
      have he : (x :: xs).reverse ++ acc = xs.reverse ++ (x :: acc) := by
        rw [List.reverse_cons, List.append_assoc]
        rfl
      rw [he] at hr
      exact hr
    rw [ih (x :: acc) rest (fun hm => h (List.mem_cons_of_mem _ hm)) hr2]
    congr 1
    rw [List.reverse_cons, List.append_assoc]
    rfl

/-- Splitting a newline-joined list of break-free lines (none ending in a
carriage return) recovers the lines. -/
theorem splitLines_joinSep : ∀ (ss : List String), ss ≠ [] →
    (∀ l ∈ ss, '\n' ∉ l.data ∧ l.data.getLast? ≠ some '\r') →
    splitLines (joinSep "\n" ss).data = ss.map String.data := by
  intro ss
  induction ss with
  | nil => intro h; cases h rfl
  | cons x ss ih =>
    intro _ hall
    cases ss with
    | nil =>
      show splitLines x.data = [x.data]
      unfold splitLines
      rw [splitLinesAux_no_newline x.data [] (hall x (List.mem_cons_self _ _)).1]
      rfl
    | cons y ss' =>
      have hdata : (joinSep "\n" (x :: y :: ss')).data =
          x.data ++ '\n' :: (joinSep "\n" (y :: ss')).data := by
        show (x ++ "\n" ++ joinSep "\n" (y :: ss')).data = _
        rw [String.data_append, String.data_append, List.append_assoc]
        rfl
      have hr : (x.data.reverse ++ ([] : List Char)).head? ≠ some '\r' := by
        rw [List.append_nil, List.head?_reverse]
        exact (hall x (List.mem_cons_self _ _)).2
      have ihr := ih (by simp) (fun l hl => hall l (List.mem_cons_of_mem _ hl))
      unfold splitLines at ihr
      unfold splitLines
      rw [hdata]
      rw [splitLinesAux_split x.data [] _ (hall x (List.mem_cons_self _ _)).1 hr]
      rw [ihr]
      rfl

/-- JavaScript `x || d` keeps a nonempty string. -/
theorem jsOr_some_ne (v d : String) (h : v ≠ "") : jsOr (some v.data) d = v := by
  show (if v.data = [] then d else (⟨v.data⟩ : String)) = v
  rw [if_neg (str_ne_data v h)]

/-- JavaScript `x || ""` is the identity on strings. -/
theorem jsOr_some_empty (v : String) : jsOr (some v.data) "" = v := by
  show (if v.data = [] then "" else (⟨v.data⟩ : String)) = v
  by_cases h : v.data = []
  · rw [if_pos h]
    exact (str_data_eq v "" h).symm
  · rw [if_neg h]

/-- Importing one exported data line under the exported header yields a
ticket with the same id, name, contact, slot id and creation timestamp,
provided the id and timestamp are nonempty and the slot id resolves. -/
theorem importRow_rowLine (slots : List Slot) (t : Ticket) (fresh now : String)
    (hid : t.id ≠ "") (hcr : t.createdAtISO ≠ "")
    (hslot : ∃ sl ∈ slots, sl.id = t.slotId) :
    ∃ t', importRow slots fresh now (headerOf csvHeader.data) (rowLine t).data = .ok t' ∧
      ticketCore t' = ticketCore t := by
  have hcols : parseCols (rowLine t).data =
      [t.id.data, t.name.data, t.contact.data, (slotLabel t).data, t.slotId.data,
        t.createdAtISO.data] :=
    parseCols_row [t.name, t.contact, slotLabel t, t.slotId, t.createdAtISO] t.id
  obtain ⟨sl, hmem, hsl⟩ := hslot
  have hfindSome : ((slots.find? (fun s => s.id.data == t.slotId.data)).isSome) = true := by
    rw [List.find?_isSome]
    exact ⟨sl, hmem, by simp [hsl]⟩
  obtain ⟨slot, hfind⟩ := Option.isSome_iff_exists.mp hfindSome
  have hslotid : slot.id = t.slotId := by
    have hp := List.find?_some hfind
    rw [beq_iff_eq] at hp
    exact str_data_eq _ _ hp
  have hres : resolveSlot slots (some t.slotId.data) = some slot := by
    show ((slots.find? (fun sl => sl.id.data == t.slotId.data)).orElse
      (fun _ => slots.head?)) = some slot
    rw [hfind]
    rfl
  have hidx0 : colIdx (headerOf csvHeader.data) "id" = some 0 := by decide
  have hidx1 : colIdx (headerOf csvHeader.data) "name" = some 1 := by decide
  have hidx2 : colIdx (headerOf csvHeader.data) "contact" = some 2 := by decide
  have hidx4 : colIdx (headerOf csvHeader.data) "slot_id" = some 4 := by decide
  have hidx5 : colIdx (headerOf csvHeader.data) "created_at" = some 5 := by decide
  have hca0 : colAt (parseCols (rowLine t).data) (some 0) = some t.id.data := by
    rw [hcols]
    rfl
  have hca1 : colAt (parseCols (rowLine t).data) (some 1) = some t.name.data := by
    rw [hcols]
    rfl
  have hca2 : colAt (parseCols (rowLine t).data) (some 2) = some t.contact.data := by
    rw [hcols]
    rfl
  have hca4 : colAt (parseCols (rowLine t).data) (some 4) = some t.slotId.data := by
    rw [hcols]
    rfl
  have hca5 : colAt (parseCols (rowLine t).data) (some 5) = some t.createdAtISO.data := by
    rw [hcols]
    rfl
  refine ⟨{ id := t.id, name := t.name, contact := t.contact, slotId := slot.id,
            slotStartISO := slot.startISO, slotEndISO := slot.endISO,
            createdAtISO := t.createdAtISO, notified := false }, ?_, ?_⟩
  · unfold importRow
    simp only [hidx0, hidx1, hidx2, hidx4, hidx5, hca0, hca1, hca2, hca4, hca5, hres]
    rw [jsOr_some_ne t.id fresh hid, jsOr_some_empty t.name, jsOr_some_empty t.contact,
      jsOr_some_ne t.createdAtISO now hcr]
  · show (t.id, t.name, t.contact, slot.id, t.createdAtISO) =
      (t.id, t.name, t.contact, t.slotId, t.createdAtISO)
    rw [hslotid]

/-- The import loop over exported data lines reproduces the original core
fields row by row. -/
theorem importRows_rowLines (slots : List Slot) (fresh : Nat → String) (now : String) :
    ∀ (tsx : List Ticket) (i : Nat),
    (∀ t ∈ tsx, t.id ≠ "" ∧ t.createdAtISO ≠ "" ∧ ∃ sl ∈ slots, sl.id = t.slotId) →
    ∃ out, importRows slots fresh now (headerOf csvHeader.data) i
        (tsx.map (fun t => (rowLine t).data)) = .ok out ∧
      out.map ticketCore = tsx.map ticketCore := by
  intro tsx
  induction tsx with
  | nil =>
    intro i _
    exact ⟨[], rfl, rfl⟩
  | cons t ts ih =>
    intro i hall
    obtain ⟨h1, h2, h3⟩ := hall t (List.mem_cons_self _ _)
    obtain ⟨t', hrow, hcore⟩ := importRow_rowLine slots t (fresh i) now h1 h2 h3
    obtain ⟨out, hrows, houtcore⟩ := ih (i + 1) (fun u hu => hall u (List.mem_cons_of_mem _ hu))
    refine ⟨t' :: out, ?_, ?_⟩
    · simp only [List.map_cons]
      rw [importRows]
      rw [hrow, hrows]
    · simp only [List.map_cons, houtcore]
      rw [show ticketCore t' = ticketCore t from hcore]

/-- C4 (amended): provided every ticket has a nonempty id, a nonempty
creation timestamp, a slot id that resolves in the current slot list, and no
line break in any exported field, exporting the registry to CSV and importing
the text back yields a registry with the same ids, names, contacts, slot ids
and creation timestamps, in order. -/
theorem csv_roundtrip (slots : List Slot) (ts : List Ticket) (fresh : Nat → String)
    (now : String)
    (h : ∀ t ∈ ts, t.id ≠ "" ∧ t.createdAtISO ≠ "" ∧ (∃ sl ∈ slots, sl.id = t.slotId) ∧
      ticketFieldsNoNewline t) :
    (registryAfterImport slots ts fresh now (exportCSVText ts)).map ticketCore =
      ts.map ticketCore := by
  cases ts with
  | nil => rfl
  | cons t0 rest =>
    have hexp := exportCSV_eq_rows (t0 :: rest) (by simp)
    have hlines : splitLines (exportCSVText (t0 :: rest)).data =
        csvHeader.data :: (t0 :: rest).map (fun u => (rowLine u).data) := by
      rw [hexp]
      have hjs := splitLines_joinSep (csvHeader :: (t0 :: rest).map rowLine) (by simp)
        (by
          intro l hl
          rcases List.mem_cons.mp hl with rfl | hl'
          · exact ⟨by decide, by decide⟩
          · obtain ⟨u, hu, rfl⟩ := List.mem_map.mp hl'
            refine ⟨rowLine_no_newline u (h u hu).2.2.2, ?_⟩
            rw [rowLine_getLast]
            decide)
      rw [hjs, List.map_cons, List.map_map]
      rfl
    have hfilter : (splitLines (exportCSVText (t0 :: rest)).data).filter (fun l => l ≠ []) =
        csvHeader.data :: (t0 :: rest).map (fun u => (rowLine u).data) := by
      rw [hlines]
      rw [List.filter_eq_self.mpr]
      intro a ha
      rcases List.mem_cons.mp ha with rfl | ha'
      · decide
      · obtain ⟨u, _, rfl⟩ := List.mem_map.mp ha'
        simpa using rowLine_ne_nil u
    obtain ⟨out, hrows, hcore⟩ := importRows_rowLines slots fresh now (t0 :: rest) 0
      (fun u hu => ⟨(h u hu).1, (h u hu).2.1, (h u hu).2.2.1⟩)
    have himp : importCSVText slots (t0 :: rest) fresh now (exportCSVText (t0 :: rest)) =
        .ok out := by
      unfold importCSVText
      rw [hfilter]
      exact hrows
    unfold registryAfterImport
    rw [himp]
    rw [hcore]

/-- Witness for `csv_roundtrip` at a one-ticket registry whose name contains
a comma and a quote. -/
theorem csv_roundtrip_witness :
    (∀ t ∈ [exTicketGood], t.id ≠ "" ∧ t.createdAtISO ≠ "" ∧
      (∃ sl ∈ [exSlotA], sl.id = t.slotId) ∧ ticketFieldsNoNewline t) ∧
    (registryAfterImport [exSlotA] [exTicketGood] (fun _ => "ZZZZZ999") "NOW"
        (exportCSVText [exTicketGood])).map ticketCore = [exTicketGood].map ticketCore :=
  ⟨by decide, csv_roundtrip [exSlotA] [exTicketGood] (fun _ => "ZZZZZ999") "NOW" (by decide)⟩

/-- C4 counterexample: a ticket whose `slotId` is absent from the current
slot list comes back from the round trip with a different slot identifier
(the first slot's), so the round trip does not preserve slot identifiers for
every ticket list. -/
theorem csv_roundtrip_counterexample :
    (registryAfterImport [exSlotA] [exTicketOrphan] (fun _ => "ZZZZZ999") "NOW"
        (exportCSVText [exTicketOrphan])).map (fun t => t.slotId) ≠
      [exTicketOrphan].map (fun t => t.slotId) := by
  decide

end Noguchi
